import Mathlib

/-!
Verification of the text-chunking and retrieval pipeline of the
ai-job-assistant repository against its natural-language specification.

The Python sources are shallowly embedded: strings are Lean `String`s
processed as `List Char`, regex passes of `clean_text` / `chunk_text`
(src/utils.py) are modelled as structurally recursive scans, and the
stateful collaborators (embedding model, vector store, chat model) are
modelled as explicit oracle functions and explicit state passing.
-/

namespace JobAssistant

/-- Text is processed character by character; `Str` is the character-list
view of a Python string. -/
abbrev Str := List Char

/-- Python's `\n` — the character class of `re.sub(r'\n+', ' ', text)` in
`clean_text` (src/utils.py line 25). -/
def isNl (c : Char) : Bool := c = '\n'

/-- Python's regex class `\s` (space, tab, newline, carriage return,
vertical tab, form feed), used by `re.sub(r'\s+', ' ', text)` and by
`str.strip()` in `clean_text`. -/
def isWsChar (c : Char) : Bool :=
  c = ' ' || c = '\t' || c = '\n' || c = '\r' || c = Char.ofNat 11 || c = Char.ofNat 12

/-- The character class kept by `re.sub(r'[^a-zA-Z0-9\s.,!?-]', '', text)`
in `clean_text` (src/utils.py line 29): ASCII alphanumerics, whitespace and
the punctuation `. , ! ? -`.  Note the apostrophe is NOT in this class even
though the code comment on line 27 says to keep `.,!?-'`. -/
def isKept (c : Char) : Bool :=
  c.isAlpha || c.isDigit || isWsChar c || c = '.' || c = ',' || c = '!' || c = '?' || c = '-'

/-- `re.sub(r'P+', rep, text)` for a single-character class `P`: every
maximal run of characters satisfying `p` is replaced by the single
character `rep`.  The boolean argument records whether the scan is
currently inside a run (in which case further `p`-characters are absorbed
into the already-emitted replacement). -/
def collapseAux (p : Char → Bool) (rep : Char) : Bool → Str → Str
  | _, [] => []
  | inRun, c :: cs =>
    if p c then
      if inRun then collapseAux p rep true cs
      else rep :: collapseAux p rep true cs
    else c :: collapseAux p rep false cs

/-- Python `str.strip()`: drop leading and trailing whitespace. -/
def stripChars (l : Str) : Str :=
  (((l.dropWhile isWsChar).reverse).dropWhile isWsChar).reverse

/-- The cleaning pipeline of `clean_text` (src/utils.py lines 21-34) on the
character list: collapse newline runs to a single space, drop characters
outside the kept class, collapse whitespace runs to a single space, strip. -/
def cleanList (l : Str) : Str :=
  stripChars (collapseAux isWsChar ' ' false ((collapseAux isNl ' ' false l).filter isKept))

/-- `clean_text` (src/utils.py lines 10-34). -/
def clean_text (text : String) : String :=
  if text = "" then "" else ⟨cleanList text.data⟩

/-- Sentence terminators of the split pattern `(?<=[.!?])\s+` in
`chunk_text` (src/utils.py line 54). -/
def isTermChar (c : Char) : Bool := c = '.' || c = '!' || c = '?'

/-- `re.split(r'(?<=[.!?])\s+', text)`: cut after each `.` `!` `?` that is
followed by whitespace, consuming the (maximal) whitespace run.  The
boolean argument is true while the scan is consuming such a run; `acc`
holds the current field in reverse. -/
def splitAux : Bool → Str → Str → List Str
  | _, acc, [] => [acc.reverse]
  | true, acc, c :: cs =>
    if isWsChar c then splitAux true acc cs
    else splitAux false [c] cs
  | false, acc, c :: cs =>
    if isTermChar c && (cs.head?.elim false isWsChar) then
      (c :: acc).reverse :: splitAux true [] cs
    else splitAux false (c :: acc) cs

/-- The sentence list of `chunk_text` (src/utils.py line 54). -/
def splitSentences (l : Str) : List Str := splitAux false [] l

/-- `current_length` bookkeeping: Python sums `len(sentence)` over the
sentences of the current chunk (joining spaces are not counted). -/
def sumLen (c : List Str) : Nat := (c.map List.length).sum

/-- `" ".join(current_chunk)` (src/utils.py lines 66 and 88). -/
def joinSp : List Str → Str
  | [] => []
  | [s] => s
  | s :: rest => s ++ ' ' :: joinSp rest

/-- The overlap scan of `chunk_text` (src/utils.py lines 71-78) applied to
the reversed chunk: accumulate sentences while the running total stays
strictly below `overlap`, stopping at the first sentence that would reach
it. -/
def takeOverlap (overlap : Nat) : Nat → List Str → List Str
  | _, [] => []
  | olen, s :: rest =>
    if olen + s.length < overlap then s :: takeOverlap overlap (olen + s.length) rest
    else []

/-- The `overlap_buffer` built when a chunk is closed (src/utils.py lines
71-80): the scan runs over `reversed(current_chunk)` and inserts at the
front, i.e. it selects a suffix of the chunk. -/
def overlapSeed (overlap : Nat) (cur : List Str) : List Str :=
  (takeOverlap overlap 0 cur.reverse).reverse

/-- The main loop of `chunk_text` (src/utils.py lines 60-88), returning
each chunk as its list of sentences.  `cur` is `current_chunk` and `clen`
is `current_length`. -/
def chunkLoop (chunk_size overlap : Nat) : List Str → List Str → Nat → List (List Str)
  | [], cur, _ => if cur.isEmpty then [] else [cur]
  | s :: rest, cur, clen =>
    if clen + s.length > chunk_size && !cur.isEmpty then
      cur :: chunkLoop chunk_size overlap rest (overlapSeed overlap cur ++ [s])
        (sumLen (overlapSeed overlap cur) + s.length)
    else
      chunkLoop chunk_size overlap rest (cur ++ [s]) (clen + s.length)

/-- `chunk_text` at the sentence level: the chunks as sentence lists,
before `" ".join`. -/
def chunkLists (text : String) (chunk_size overlap : Nat) : List (List Str) :=
  if text = "" then [] else chunkLoop chunk_size overlap (splitSentences text.data) [] 0

/-- `chunk_text` (src/utils.py lines 36-90); the Python call sites use the
default arguments `chunk_size=500, overlap=50`. -/
def chunk_text (text : String) (chunk_size overlap : Nat) : List String :=
  (chunkLists text chunk_size overlap).map fun c => ⟨joinSp c⟩

/-- A document as produced by the extraction collaborator
(`DocumentLoader`): the dictionary `{content, filename, file_type}`.
`extract_metadata` reads the keys with `.get(..., 'unknown')`; the
structure stores the values the lookups yield. -/
structure Document where
  content : String
  filename : String
  file_type : String

/-- The metadata template built by `extract_metadata` (src/utils.py lines
92-108), before `chunk_index` is added. -/
structure MetaTemplate where
  filename : String
  file_type : String
  date_processed : String
  word_count : Nat

/-- Per-chunk metadata: the template plus the `chunk_index` added by
`create_document_chunks` (src/utils.py line 132). -/
structure ChunkMeta where
  filename : String
  file_type : String
  date_processed : String
  word_count : Nat
  chunk_index : Nat
deriving DecidableEq

/-- A chunk record `{'text': ..., 'metadata': ...}` as built by
`create_document_chunks` (src/utils.py lines 133-136). -/
structure Chunk where
  text : String
  metadata : ChunkMeta
deriving DecidableEq

/-- Python `len(content.split())`: whitespace-separated tokens, empty
tokens dropped. -/
def countWords (s : String) : Nat :=
  ((s.data.splitOnP isWsChar).filter (fun w => !w.isEmpty)).length

/-- `extract_metadata` (src/utils.py lines 92-108).  `datetime.now()` is
impure; the wall-clock reading is passed in explicitly as `now`. -/
def extract_metadata (now : String) (doc : Document) : MetaTemplate :=
  { filename := doc.filename
    file_type := doc.file_type
    date_processed := now
    word_count := if doc.content = "" then 0 else countWords doc.content }

/-- `create_document_chunks` (src/utils.py lines 110-139): clean, extract
metadata, chunk with the default parameters `500, 50`, then attach
`chunk_index := i` for the i-th chunk (from `enumerate`). -/
def create_document_chunks (now : String) (doc : Document) : List Chunk :=
  if doc.content = "" then []
  else
    let cleaned := clean_text doc.content
    let metadata := extract_metadata now doc
    let text_chunks := chunk_text cleaned 500 50
    text_chunks.enum.map fun p =>
      { text := p.2
        metadata :=
          { filename := metadata.filename
            file_type := metadata.file_type
            date_processed := metadata.date_processed
            word_count := metadata.word_count
            chunk_index := p.1 } }

/-! ## RAG pipeline (src/rag_pipeline.py)

The OpenAI embedding model and the Chroma collection are collaborators;
the embedding call is an oracle `List String → Option (List Vec)` (`none`
models a raised exception), and the collection is an explicit association
list from ids to stored entries. -/

/-- An embedding vector.  The numeric values are opaque to every claim, so
vector components are left as integers. -/
abbrev Vec := List Int

/-- An entry of the Chroma collection: the `(documents, metadatas,
embeddings)` stored under one id by `collection.upsert`. -/
structure StoredEntry where
  text : String
  metadata : ChunkMeta
  embedding : Vec
deriving DecidableEq

/-- The named Chroma collection: id-keyed entries. -/
abbrev Collection := List (String × StoredEntry)

/-- The embedding collaborator (`OpenAIEmbeddings.embed_documents`);
`none` models a raised exception (auth/network/quota failure). -/
abbrev Embedder := List String → Option (List Vec)

/-- `create_embeddings` (src/rag_pipeline.py lines 70-86): empty input
yields `[]`; an exception from the embedding collaborator is caught and
yields `[]`. -/
def create_embeddings (embed : Embedder) (texts : List String) : List Vec :=
  if texts = [] then []
  else match embed texts with
    | some vs => vs
    | none => []

/-- Chroma `upsert` for a single id: overwrite the entry if the id is
present, otherwise append. -/
def upsertOne (col : Collection) (id : String) (e : StoredEntry) : Collection :=
  if (col.lookup id).isSome then
    col.map fun p => if p.1 = id then (id, e) else p
  else
    col ++ [(id, e)]

/-- Chroma `collection.upsert(documents, embeddings, metadatas, ids)`:
upsert each aligned tuple in order. -/
def upsertMany (col : Collection) : List (String × StoredEntry) → Collection
  | [] => col
  | (id, e) :: rest => upsertMany (upsertOne col id e) rest

/-- The id built by `add_documents` (src/rag_pipeline.py line 102):
`f"{chunk['metadata']['filename']}_{chunk['metadata']['chunk_index']}"`. -/
def chunkId (ch : Chunk) : String :=
  ch.metadata.filename ++ "_" ++ toString ch.metadata.chunk_index

/-- Outcome signal of `add_documents`: the code logs a warning and returns
on empty input, logs an error and returns without writing when embeddings
are missing, and logs success otherwise. -/
inductive AddOutcome where
  | noChunks
  | embedFailed
  | ok
deriving DecidableEq

/-- `add_documents` (src/rag_pipeline.py lines 88-119), with the
collection state passed explicitly.  Empty chunk list: warn and return.
Empty embedding result (embedding failure or nothing returned): abort
before the upsert. -/
def add_documents (embed : Embedder) (col : Collection) (chunks : List Chunk) :
    Collection × AddOutcome :=
  if chunks = [] then (col, .noChunks)
  else
    let texts := chunks.map Chunk.text
    let metadatas := chunks.map Chunk.metadata
    let ids := chunks.map chunkId
    let embeddings := create_embeddings embed texts
    if embeddings = [] then (col, .embedFailed)
    else
      (upsertMany col (ids.zip ((texts.zip (metadatas.zip embeddings)).map
        fun t => ⟨t.1, t.2.1, t.2.2⟩)), .ok)

/-- A formatted search result of `search_similar` (src/rag_pipeline.py
lines 141-149).  The float distance is opaque to every claim; only its
presence and the result order matter, so it is kept as an optional
integer. -/
structure SearchResult where
  id : String
  text : String
  metadata : ChunkMeta
  distance : Option Int
deriving DecidableEq

/-- The retrieval collaborator: `search_similar` never raises (every
exception is caught and becomes `[]`), so downstream code sees it as a
total function from query and result count to a result list. -/
abbrev Search := String → Nat → List SearchResult

/-! ## Prompt templates (src/prompt_templates.py)

Each template is a Python string with `str.format` placeholders.  The
fixed prose between placeholders is configuration that the spec places
out of scope, so each literal block is abbreviated to a short distinct
stand-in; the placeholder names, their order, and the formatting/error
behaviour of `get_prompt` are modelled faithfully. -/

/-- A piece of a format string: literal text or a named `{field}` hole. -/
inductive TPart where
  | lit : String → TPart
  | hole : String → TPart

/-- `RESUME_BULLET_PROMPT`: placeholders `{job_description}`, `{context}`,
`{name}` in that order. -/
def RESUME_BULLET_PROMPT : List TPart :=
  [.lit "RESUME_BULLET_PROMPT A ", .hole "job_description", .lit " B ",
   .hole "context", .lit " C ", .hole "name", .lit " D"]

/-- `COVER_LETTER_PROMPT`: placeholders `{job_description}`,
`{company_name}`, `{role_title}`, `{context}` in that order. -/
def COVER_LETTER_PROMPT : List TPart :=
  [.lit "COVER_LETTER_PROMPT A ", .hole "job_description", .lit " B ",
   .hole "company_name", .lit " C ", .hole "role_title", .lit " D ",
   .hole "context", .lit " E"]

/-- `ATS_ANALYSIS_PROMPT`: placeholders `{job_description}`,
`{resume_content}` in that order. -/
def ATS_ANALYSIS_PROMPT : List TPart :=
  [.lit "ATS_ANALYSIS_PROMPT A ", .hole "job_description", .lit " B ",
   .hole "resume_content", .lit " C"]

/-- `LINKEDIN_MESSAGE_PROMPT`: placeholders `{job_description}`,
`{company_name}`, `{role_title}`, `{achievement}` in that order. -/
def LINKEDIN_MESSAGE_PROMPT : List TPart :=
  [.lit "LINKEDIN_MESSAGE_PROMPT A ", .hole "job_description", .lit " B ",
   .hole "company_name", .lit " C ", .hole "role_title", .lit " D ",
   .hole "achievement", .lit " E"]

/-- Python `template.format(**kwargs)`: substitute each hole from the
keyword arguments; a missing key raises `KeyError(key)`, modelled as
`Except.error key`.  Extra keyword arguments are ignored, as in Python. -/
def formatTemplate (fields : List (String × String)) : List TPart → Except String String
  | [] => .ok ""
  | .lit s :: rest => do
    let r ← formatTemplate fields rest
    .ok (s ++ r)
  | .hole k :: rest =>
    match fields.lookup k with
    | none => .error k
    | some v => do
      let r ← formatTemplate fields rest
      .ok (v ++ r)

/-- The `prompts` dictionary of `get_prompt` (src/prompt_templates.py
lines 251-256). -/
def promptsTable : List (String × List TPart) :=
  [("resume_bullets", RESUME_BULLET_PROMPT),
   ("cover_letter", COVER_LETTER_PROMPT),
   ("ats_analysis", ATS_ANALYSIS_PROMPT),
   ("linkedin_message", LINKEDIN_MESSAGE_PROMPT)]

/-- `get_prompt` (src/prompt_templates.py lines 227-266): unknown prompt
type raises `ValueError`; a `KeyError` from `format` is re-raised as
`ValueError("Missing required argument for {prompt_type} prompt: {e}")`
(the quotation marks that Python's `KeyError.__str__` adds around the key
are elided). -/
def get_prompt (prompt_type : String) (fields : List (String × String)) :
    Except String String :=
  match promptsTable.lookup prompt_type with
  | none => .error ("Unknown prompt type: " ++ prompt_type)
  | some template =>
    match formatTemplate fields template with
    | .error k => .error ("Missing required argument for " ++ prompt_type ++ " prompt: " ++ k)
    | .ok s => .ok s

/-! ## Generation chains (src/generation_chains.py)

The chat model call `self.llm.invoke(prompt).content` is the completion
collaborator: an oracle `String → Except String String` where `.error`
models a raised exception whose message is the string. -/

/-- The completion collaborator. -/
abbrev LLM := String → Except String String

/-- `_retrieve_context` (src/generation_chains.py lines 38-59): search,
return the fixed sentinel when the result list is empty, otherwise join
the result texts with a blank line.  (`search_similar` catches its own
exceptions and returns `[]`, so the outer `except` branch of
`_retrieve_context` is unreachable.) -/
def retrieve_context (search : Search) (query : String) (n_results : Nat) : String :=
  let results := search query n_results
  if results = [] then "No relevant background information available."
  else String.intercalate "\n\n" (results.map SearchResult.text)

/-- The shared shape of the four generation operations: the `try` body
renders the prompt and invokes the completion collaborator, and the
`except Exception` handler turns any raised error into the placeholder
`f"Error: {str(e)}"` (src/generation_chains.py lines 72-94 and the three
analogous bodies). -/
def generationStep (rendered : Except String String) (llm : LLM) : String :=
  match rendered with
  | .error e => "Error: " ++ e
  | .ok prompt =>
    match llm prompt with
    | .error e => "Error: " ++ e
    | .ok r => r

/-- `generate_resume_bullets` (src/generation_chains.py lines 61-94). -/
def generate_resume_bullets (search : Search) (llm : LLM)
    (job_description candidate_name : String) : String :=
  let context := retrieve_context search job_description 5
  generationStep
    (get_prompt "resume_bullets"
      [("job_description", job_description), ("context", context),
       ("name", candidate_name)]) llm

/-- `generate_cover_letter` (src/generation_chains.py lines 96-131). -/
def generate_cover_letter (search : Search) (llm : LLM)
    (job_description company_name role_title : String) : String :=
  let context := retrieve_context search job_description 5
  generationStep
    (get_prompt "cover_letter"
      [("job_description", job_description), ("company_name", company_name),
       ("role_title", role_title), ("context", context)]) llm

/-- The placeholder sentinel tested by `generate_ats_analysis`. -/
def atsPlaceholder : String := "Resume content not provided for ATS analysis."

/-- `generate_ats_analysis` (src/generation_chains.py lines 133-172): when
the resume content is empty, whitespace, or the exact placeholder
sentinel, it is replaced by context retrieved with a fixed synthetic query
and `n_results=10`. -/
def generate_ats_analysis (search : Search) (llm : LLM)
    (job_description resume_content : String) : String :=
  let rc :=
    if resume_content = "" || (⟨stripChars resume_content.data⟩ : String) = ""
        || resume_content = atsPlaceholder then
      retrieve_context search "resume work experience projects skills education background" 10
    else resume_content
  generationStep
    (get_prompt "ats_analysis"
      [("job_description", job_description), ("resume_content", rc)]) llm

/-- `generate_linkedin_message` (src/generation_chains.py lines 174-210):
uses `search_similar` directly with `n_results=1` and a fixed fallback
achievement when nothing is found. -/
def generate_linkedin_message (search : Search) (llm : LLM)
    (job_description company_name role_title : String) : String :=
  let results := search job_description 1
  let achievement :=
    match results with
    | [] => "relevant experience in the field"
    | r :: _ => r.text
  generationStep
    (get_prompt "linkedin_message"
      [("job_description", job_description), ("company_name", company_name),
       ("role_title", role_title), ("achievement", achievement)]) llm

/-- The result dictionary of `generate_all` (src/generation_chains.py
lines 235-240). -/
structure GenResults where
  resume_bullets : String
  cover_letter : String
  ats_analysis : String
  linkedin_message : String
deriving DecidableEq

/-- `generate_all` (src/generation_chains.py lines 212-240). -/
def generate_all (search : Search) (llm : LLM)
    (job_description company_name role_title candidate_name resume_content : String) :
    GenResults :=
  { resume_bullets := generate_resume_bullets search llm job_description candidate_name
    cover_letter := generate_cover_letter search llm job_description company_name role_title
    ats_analysis := generate_ats_analysis search llm job_description resume_content
    linkedin_message := generate_linkedin_message search llm job_description company_name role_title }

/-- The four artifact types of `generate_all`. -/
inductive ArtifactType where
  | resumeBullets
  | coverLetter
  | atsAnalysis
  | linkedinMessage
deriving DecidableEq

/-- The slot of the result dictionary holding a given artifact. -/
def slot (t : ArtifactType) (g : GenResults) : String :=
  match t with
  | .resumeBullets => g.resume_bullets
  | .coverLetter => g.cover_letter
  | .atsAnalysis => g.ats_analysis
  | .linkedinMessage => g.linkedin_message

/-- Total rendering of a template when every hole is present: missing keys
fall back to `""` (they never occur in the uses below). -/
def renderTotal (fields : List (String × String)) : List TPart → String
  | [] => ""
  | .lit s :: rest => s ++ renderTotal fields rest
  | .hole k :: rest => ((fields.lookup k).getD "") ++ renderTotal fields rest

/-- The field list each generation operation passes to `get_prompt`. -/
def fieldsOf (t : ArtifactType) (search : Search)
    (job_description company_name role_title candidate_name resume_content : String) :
    List (String × String) :=
  match t with
  | .resumeBullets =>
    [("job_description", job_description),
     ("context", retrieve_context search job_description 5),
     ("name", candidate_name)]
  | .coverLetter =>
    [("job_description", job_description), ("company_name", company_name),
     ("role_title", role_title),
     ("context", retrieve_context search job_description 5)]
  | .atsAnalysis =>
    [("job_description", job_description),
     ("resume_content",
       if resume_content = "" || (⟨stripChars resume_content.data⟩ : String) = ""
           || resume_content = atsPlaceholder then
         retrieve_context search
           "resume work experience projects skills education background" 10
       else resume_content)]
  | .linkedinMessage =>
    [("job_description", job_description), ("company_name", company_name),
     ("role_title", role_title),
     ("achievement",
       match search job_description 1 with
       | [] => "relevant experience in the field"
       | r :: _ => r.text)]

/-- The template name each generation operation passes to `get_prompt`. -/
def nameOf : ArtifactType → String
  | .resumeBullets => "resume_bullets"
  | .coverLetter => "cover_letter"
  | .atsAnalysis => "ats_analysis"
  | .linkedinMessage => "linkedin_message"

/-- The template each artifact type renders. -/
def templateOf : ArtifactType → List TPart
  | .resumeBullets => RESUME_BULLET_PROMPT
  | .coverLetter => COVER_LETTER_PROMPT
  | .atsAnalysis => ATS_ANALYSIS_PROMPT
  | .linkedinMessage => LINKEDIN_MESSAGE_PROMPT

/-- The prompt string a given artifact's operation sends to the completion
collaborator. -/
def promptOf (t : ArtifactType) (search : Search)
    (job_description company_name role_title candidate_name resume_content : String) :
    String :=
  renderTotal
    (fieldsOf t search job_description company_name role_title candidate_name resume_content)
    (templateOf t)

/-! ## Concrete example inputs used by counterexamples and witnesses -/

/-- The apostrophe character (U+0027). -/
def aposChar : Char := Char.ofNat 39

/-- 101 five-character sentences: the first 100 accumulate to exactly 500
characters of `current_length` (joining spaces are not counted by the
loop), and the 101st triggers the overflow check. -/
def exRun : String := String.intercalate " " (List.replicate 101 "abcd.")

/-- A 480-character sentence of `a`s. -/
def exLongA : String := ⟨List.replicate 479 'a' ++ ['.']⟩

/-- A 480-character sentence of `b`s. -/
def exLongB : String := ⟨List.replicate 479 'b' ++ ['.']⟩

/-- Two long sentences; each alone is below `target_size = 500` but their
sum is not, and each is at least `overlap = 50` long. -/
def exTwoLong : String := exLongA ++ " " ++ exLongB

/-- Two adjacent characters are not both in the class `p`: the run-freeness
property that run-collapsing establishes. -/
def NoAdj (p : Char → Bool) (a b : Char) : Prop := ¬(p a = true ∧ p b = true)

/-- The cover-letter prompt as rendered for the example arguments
`jd cn rt nm rc` with a search collaborator that finds nothing. -/
def exCoverPrompt : String :=
  "COVER_LETTER_PROMPT A jd B cn C rt D No relevant background information available. E"

/-- A completion collaborator that raises exactly on the cover-letter
prompt above and succeeds on everything else. -/
def exLLM : LLM := fun p =>
  if p = exCoverPrompt then Except.error "boom" else Except.ok ("OUT " ++ p)

/-! ## Theorems -/

/-- C4: the claim (and the code comment on src/utils.py line 27) says the
apostrophe is retained by cleaning, but the regex character class
`[^a-zA-Z0-9\s.,!?-]` does not include it: cleaning the contraction
word spelled d-o-n-apostrophe-t drops the apostrophe. -/
theorem clean_text_strips_apostrophe :
    clean_text ⟨['d', 'o', 'n', aposChar, 't']⟩ = "dont" := by decide

/-- C5: for a document with non-empty content, the chunk records carry
`chunk_index` values that are exactly `0..k-1` in emission order. -/
theorem chunk_index_contiguous (now : String) (doc : Document) (h : doc.content ≠ "") :
    (create_document_chunks now doc).map (fun ch => ch.metadata.chunk_index)
      = List.range (create_document_chunks now doc).length := by
  simp only [create_document_chunks, h, if_false, List.map_map, List.length_map,
    List.enum_length]
  exact List.enum_map_fst (chunk_text (clean_text doc.content) 500 50)

/-- C5 witness. -/
theorem chunk_index_contiguous_witness :
    (create_document_chunks "2026-10-12" ⟨"Built systems. Led teams.", "cv.txt", "txt"⟩).map
        (fun ch => ch.metadata.chunk_index)
      = List.range
          (create_document_chunks "2026-10-12"
            ⟨"Built systems. Led teams.", "cv.txt", "txt"⟩).length :=
  chunk_index_contiguous "2026-10-12" ⟨"Built systems. Led teams.", "cv.txt", "txt"⟩
    (by decide)

/-- C6: for non-empty chunk input, if the embedding collaborator raises or
returns an empty result, `add_documents` leaves the collection unchanged
and signals the abort instead of writing anything. -/
theorem add_documents_aborts_on_embed_failure (embed : Embedder) (col : Collection)
    (chunks : List Chunk) (h1 : chunks ≠ [])
    (h2 : embed (chunks.map Chunk.text) = none ∨ embed (chunks.map Chunk.text) = some []) :
    add_documents embed col chunks = (col, AddOutcome.embedFailed) := by
  have htexts : chunks.map Chunk.text ≠ [] := by
    simpa [List.map_eq_nil_iff] using h1
  rcases h2 with h2 | h2 <;>
    simp [add_documents, create_embeddings, h1, htexts, h2]

/-- C6 witness: a one-chunk upsert against a failing embedder leaves the
(empty) collection untouched. -/
theorem add_documents_aborts_on_embed_failure_witness :
    add_documents (fun _ => none) []
        [⟨"Built systems.", ⟨"cv.txt", "txt", "2026-10-12", 2, 0⟩⟩]
      = ([], AddOutcome.embedFailed) :=
  add_documents_aborts_on_embed_failure (fun _ => none) []
    [⟨"Built systems.", ⟨"cv.txt", "txt", "2026-10-12", 2, 0⟩⟩]
    (by decide) (Or.inl rfl)

/-- C7: `_retrieve_context` returns exactly the fixed sentinel when the
underlying search yields no results, and otherwise the retrieved texts
joined with a blank-line separator in search order. -/
theorem retrieve_context_sentinel_or_join (search : Search) (query : String) (n : Nat) :
    (search query n = [] →
      retrieve_context search query n = "No relevant background information available.")
    ∧ (search query n ≠ [] →
      retrieve_context search query n
        = String.intercalate "\n\n" ((search query n).map SearchResult.text)) := by
  constructor <;> intro h <;> simp [retrieve_context, h]

/-- C7 witness: the sentinel on an empty search, the joined texts on a
two-result search. -/
theorem retrieve_context_sentinel_or_join_witness :
    retrieve_context (fun _ _ => []) "q" 3 = "No relevant background information available."
    ∧ retrieve_context
        (fun _ _ => [⟨"i1", "passage one", ⟨"f", "txt", "d", 1, 0⟩, some 0⟩,
                     ⟨"i2", "passage two", ⟨"f", "txt", "d", 1, 1⟩, some 1⟩]) "q" 2
      = "passage one\n\npassage two" := by
  refine ⟨(retrieve_context_sentinel_or_join (fun _ _ => []) "q" 3).1 rfl, ?_⟩
  have h := (retrieve_context_sentinel_or_join
    (fun _ _ => [⟨"i1", "passage one", ⟨"f", "txt", "d", 1, 0⟩, some 0⟩,
                 ⟨"i2", "passage two", ⟨"f", "txt", "d", 1, 1⟩, some 1⟩]) "q" 2).2 (by decide)
  simpa using h

/-- The sentence splitter always yields at least one field (like Python
`re.split`). -/
theorem splitAux_ne_nil (l : Str) : ∀ (b : Bool) (acc : Str), splitAux b acc l ≠ [] := by
  induction l with
  | nil => intro b acc; cases b <;> simp [splitAux]
  | cons c cs ih =>
    intro b acc
    cases b with
    | true =>
      simp only [splitAux]
      split
      · exact ih true acc
      · exact ih false [c]
    | false =>
      simp only [splitAux]
      split
      · simp
      · exact ih false (c :: acc)

/-- The chunking loop emits at least one chunk when it has pending content
or remaining sentences. -/
theorem chunkLoop_ne_nil (chunk_size overlap : Nat) (sents : List Str) :
    ∀ (cur : List Str) (clen : Nat), cur ≠ [] ∨ sents ≠ [] →
      chunkLoop chunk_size overlap sents cur clen ≠ [] := by
  induction sents with
  | nil =>
    intro cur clen h
    have hcur : cur ≠ [] := by
      rcases h with h | h
      · exact h
      · exact absurd rfl h
    simp [chunkLoop, hcur]
  | cons s rest ih =>
    intro cur clen _
    simp only [chunkLoop]
    split
    · simp
    · exact ih (cur ++ [s]) (clen + s.length) (Or.inl (by simp))

/-- C3 (amended): `chunk_text` applies no cap to `overlap`; it is simply a
total function, so a call with `overlap ≥ target_size` still returns a
chunk list (non-empty for non-empty input) rather than crashing. -/
theorem chunk_text_total_without_cap (text : String) (chunk_size overlap : Nat)
    (hc : 0 < chunk_size) (ho : chunk_size ≤ overlap) (ht : text ≠ "") :
    chunk_text text chunk_size overlap ≠ [] := by
  simp only [chunk_text, chunkLists, ht, if_false, ne_eq, List.map_eq_nil_iff]
  exact chunkLoop_ne_nil chunk_size overlap (splitSentences text.data) [] 0
    (Or.inr (splitAux_ne_nil text.data false []))

/-- C3 witness: `target_size = 5`, `overlap = 10` does not crash. -/
theorem chunk_text_total_without_cap_witness :
    chunk_text "ab. cd." 5 10 ≠ [] :=
  chunk_text_total_without_cap "ab. cd." 5 10 (by decide) (by decide) (by decide)

/-- C3 counterexample: no capping of `overlap` to `target_size - 1`
happens.  With `target_size = 5` the uncapped call (`overlap = 10`)
re-carries whole chunks and emits ever-growing segments, while the capped
call (`overlap = 5 - 1`) does not; the two outputs differ, so the overlap
value used by the carry-over logic is the raw caller value. -/
theorem chunk_text_overlap_not_capped :
    chunk_text "ab. cd. ef. gh." 5 10
        = ["ab.", "ab. cd.", "ab. cd. ef.", "ab. cd. ef. gh."]
    ∧ chunk_text "ab. cd. ef. gh." 5 (5 - 1) = ["ab.", "ab. cd.", "cd. ef.", "ef. gh."]
    ∧ chunk_text "ab. cd. ef. gh." 5 10 ≠ chunk_text "ab. cd. ef. gh." 5 (5 - 1) := by
  refine ⟨by decide, by decide, by decide⟩

theorem sumLen_append (a b : List Str) : sumLen (a ++ b) = sumLen a + sumLen b := by
  simp [sumLen]

theorem sumLen_reverse (a : List Str) : sumLen a.reverse = sumLen a := by
  simp [sumLen, List.sum_reverse]

/-- Python `len(" ".join(c))` adds one joining space per adjacent pair. -/
theorem joinSp_length : ∀ A : List Str, A ≠ [] → (joinSp A).length + 1 = sumLen A + A.length := by
  intro A
  induction A with
  | nil => intro h; exact absurd rfl h
  | cons s rest ih =>
    intro _
    cases rest with
    | nil => simp [joinSp, sumLen]
    | cons t rest' =>
      have h := ih (by simp)
      simp only [joinSp, sumLen, List.map_cons, List.sum_cons, List.length_append,
        List.length_cons] at *
      omega

/-- The overlap scan keeps the running total strictly below `overlap`
(or selects nothing). -/
theorem takeOverlap_sum (overlap : Nat) :
    ∀ (l : List Str) (olen : Nat),
      olen + sumLen (takeOverlap overlap olen l) < overlap
      ∨ takeOverlap overlap olen l = [] := by
  intro l
  induction l with
  | nil => intro olen; right; rfl
  | cons s rest ih =>
    intro olen
    by_cases h : olen + s.length < overlap
    · left
      rcases ih (olen + s.length) with h2 | h2
      · simp only [takeOverlap, if_pos h]
        have : sumLen (s :: takeOverlap overlap (olen + s.length) rest)
            = s.length + sumLen (takeOverlap overlap (olen + s.length) rest) := by
          simp [sumLen]
        omega
      · simp only [takeOverlap, if_pos h, h2]
        have : sumLen [s] = s.length := by simp [sumLen]
        simp only [sumLen, List.map_cons, List.sum_cons] at *
        simp [h2, sumLen] at *
        omega
    · right; simp [takeOverlap, h]

/-- The carried-over seed is shorter than `overlap` (strictly below, hence
at most `overlap - 1`). -/
theorem overlapSeed_sum_le (overlap : Nat) (cur : List Str) :
    sumLen (overlapSeed overlap cur) ≤ overlap - 1 := by
  rcases takeOverlap_sum overlap cur.reverse 0 with h | h
  · have := sumLen_reverse (takeOverlap overlap 0 cur.reverse)
    simp only [overlapSeed]
    omega
  · simp [overlapSeed, h, sumLen]

/-- The overlap scan selects an initial segment of its input. -/
theorem takeOverlap_append (overlap : Nat) :
    ∀ (l : List Str) (olen : Nat), ∃ t, l = takeOverlap overlap olen l ++ t := by
  intro l
  induction l with
  | nil => intro olen; exact ⟨[], rfl⟩
  | cons s rest ih =>
    intro olen
    by_cases h : olen + s.length < overlap
    · rcases ih (olen + s.length) with ⟨t, ht⟩
      exact ⟨t, by simp only [takeOverlap, if_pos h]; simpa using congrArg (s :: ·) ht⟩
    · exact ⟨s :: rest, by simp [takeOverlap, h]⟩

/-- The carried-over seed is a suffix of the closed chunk (the scan runs
over the reversed sentence list). -/
theorem overlapSeed_suffix (overlap : Nat) (cur : List Str) :
    ∃ pre, cur = pre ++ overlapSeed overlap cur := by
  rcases takeOverlap_append overlap cur.reverse 0 with ⟨t, ht⟩
  refine ⟨t.reverse, ?_⟩
  have := congrArg List.reverse ht
  simpa [overlapSeed] using this

/-- The first chunk the loop will emit extends the pending chunk `cur`. -/
theorem chunkLoop_head (chunk_size overlap : Nat) :
    ∀ (sents : List Str) (cur : List Str) (clen : Nat), cur ≠ [] →
      ∃ ext, (chunkLoop chunk_size overlap sents cur clen).head? = some (cur ++ ext) := by
  intro sents
  induction sents with
  | nil =>
    intro cur clen h
    refine ⟨[], ?_⟩
    simp [chunkLoop, h]
  | cons s rest ih =>
    intro cur clen h
    simp only [chunkLoop]
    split
    · exact ⟨[], by simp⟩
    · rcases ih (cur ++ [s]) (clen + s.length) (by simp) with ⟨ext, hext⟩
      exact ⟨[s] ++ ext, by simpa [List.append_assoc] using hext⟩

/-- Consecutive chunks emitted by the loop are linked by the overlap
carry-over: each next chunk starts with the seed of its predecessor. -/
theorem chunkLoop_chain (chunk_size overlap : Nat) :
    ∀ (sents : List Str) (cur : List Str) (clen : Nat),
      List.Chain' (fun A B => ∃ rest, B = overlapSeed overlap A ++ rest)
        (chunkLoop chunk_size overlap sents cur clen) := by
  intro sents
  induction sents with
  | nil =>
    intro cur clen
    by_cases h : cur.isEmpty <;> simp [chunkLoop, h]
  | cons s rest ih =>
    intro cur clen
    simp only [chunkLoop]
    split
    · refine List.chain'_cons'.mpr ⟨?_, ih _ _⟩
      intro b hb
      rcases chunkLoop_head chunk_size overlap rest (overlapSeed overlap cur ++ [s])
        (sumLen (overlapSeed overlap cur) + s.length) (by simp) with ⟨ext, hext⟩
      rw [hext] at hb
      cases hb
      exact ⟨[s] ++ ext, by simp⟩
    · exact ih _ _

/-- C2 (amended): consecutive segments are linked by the overlap seed —
segment `n+1` begins with the (possibly empty) maximal suffix of segment
`n` whose sentences keep a cumulative length strictly below `overlap` —
and that seed is a suffix of segment `n` of total length at most
`overlap - 1`. -/
theorem chunk_overlap_carry (text : String) (chunk_size overlap : Nat) :
    List.Chain' (fun A B => ∃ rest, B = overlapSeed overlap A ++ rest)
      (chunkLists text chunk_size overlap)
    ∧ ∀ A ∈ chunkLists text chunk_size overlap,
        (∃ pre, A = pre ++ overlapSeed overlap A)
        ∧ sumLen (overlapSeed overlap A) ≤ overlap - 1 := by
  constructor
  · by_cases h : text = ""
    · simp [chunkLists, h]
    · simp only [chunkLists, h, if_false]
      exact chunkLoop_chain chunk_size overlap (splitSentences text.data) [] 0
  · intro A _
    exact ⟨overlapSeed_suffix overlap A, overlapSeed_sum_le overlap A⟩

/-- C2 witness: in the two-segment chunking of a short text, the first
segment carries its seed into the second. -/
theorem chunk_overlap_carry_witness :
    (∃ pre, ["ab.".data] = pre ++ overlapSeed 4 ["ab.".data])
    ∧ sumLen (overlapSeed 4 ["ab.".data]) ≤ 4 - 1 :=
  (chunk_overlap_carry "ab. cd." 5 4).2 ["ab.".data] (by decide)

set_option maxRecDepth 100000 in
/-- C2 counterexample: with the default parameters, two consecutive
segments can share nothing at all.  Both sentences of `exTwoLong` are 480
characters long, so when the first segment is closed its overlap scan
stops immediately (480 ≥ 50): the carried seed is empty, and no trailing
sentence of segment 0 reappears at the head of segment 1. -/
theorem chunk_overlap_reappearance_fails :
    chunk_text exTwoLong 500 50 = [exLongA, exLongB]
    ∧ overlapSeed 50 [exLongA.data] = []
    ∧ (exLongA.data).isPrefixOf exLongB.data = false := by
  refine ⟨by decide, by decide, by decide⟩

/-- The size invariant of the chunking loop: provided `clen` tracks the
total sentence length of `cur` and `cur` satisfies the bound, every chunk
the loop emits is non-empty and its total sentence length is at most
`max chunk_size (overlap - 1 + length of its last sentence)`. -/
theorem chunkLoop_sum_bound (chunk_size overlap : Nat) :
    ∀ (sents : List Str) (cur : List Str) (clen : Nat),
      clen = sumLen cur →
      (cur ≠ [] → sumLen cur ≤ max chunk_size (overlap - 1 + (cur.getLastD []).length)) →
      ∀ A ∈ chunkLoop chunk_size overlap sents cur clen,
        A ≠ [] ∧ sumLen A ≤ max chunk_size (overlap - 1 + (A.getLastD []).length) := by
  intro sents
  induction sents with
  | nil =>
    intro cur clen _ hbound A hA
    by_cases h : cur.isEmpty
    · simp [chunkLoop, h] at hA
    · simp only [chunkLoop] at hA
      rw [if_neg h] at hA
      rw [List.mem_singleton] at hA
      subst hA
      have hcur : A ≠ [] := by simpa [List.isEmpty_iff] using h
      exact ⟨hcur, hbound hcur⟩
  | cons s rest ih =>
    intro cur clen hclen hbound A hA
    simp only [chunkLoop] at hA
    split at hA
    · rename_i hguard
      have hcur : cur ≠ [] := by
        rcases Bool.and_eq_true_iff.mp hguard with ⟨_, h2⟩
        simpa [List.isEmpty_iff] using h2
      rcases List.mem_cons.mp hA with hA | hA
      · subst hA
        exact ⟨hcur, hbound hcur⟩
      · refine ih (overlapSeed overlap cur ++ [s])
          (sumLen (overlapSeed overlap cur) + s.length) ?_ ?_ A hA
        · simp [sumLen_append, sumLen]
        · intro _
          have h1 : sumLen (overlapSeed overlap cur ++ [s])
              = sumLen (overlapSeed overlap cur) + s.length := by
            simp [sumLen_append, sumLen]
          have h2 : ((overlapSeed overlap cur ++ [s]).getLastD []) = s := by
            simp
          rw [h1, h2]
          have := overlapSeed_sum_le overlap cur
          have : sumLen (overlapSeed overlap cur) + s.length
              ≤ overlap - 1 + s.length := by omega
          exact le_trans this (le_max_right _ _)
    · rename_i hguard
      refine ih (cur ++ [s]) (clen + s.length) ?_ ?_ A hA
      · simp [sumLen_append, sumLen, hclen]
      · intro _
        have h1 : sumLen (cur ++ [s]) = sumLen cur + s.length := by
          simp [sumLen_append, sumLen]
        have h2 : ((cur ++ [s]).getLastD []) = s := by simp
        rw [h1, h2]
        by_cases hcur : cur = []
        · subst hcur
          simp only [sumLen, List.map_nil, List.sum_nil, Nat.zero_add]
          exact le_trans (Nat.le_add_left _ _) (le_max_right _ _)
        · have hc : ¬ (clen + s.length > chunk_size ∧ cur ≠ []) := by
            intro ⟨hgt, hne⟩
            apply hguard
            simp [List.isEmpty_iff, hne, hgt]
          have hle : clen + s.length ≤ chunk_size := by
            rcases Nat.lt_or_ge chunk_size (clen + s.length) with hlt | hge
            · exact absurd ⟨hlt, hcur⟩ hc
            · exact hge
          rw [hclen] at hle
          exact le_trans hle (le_max_left _ _)

/-- C1 (amended): every emitted segment is non-empty; its total sentence
length (excluding joining spaces) is at most
`max target_size (overlap - 1 + length of its final sentence)`, and its
joined character length adds exactly one space per adjacent sentence
pair.  (The bound `target_size +` the triggering sentence length claimed
by the spec holds for neither measure, see the counterexample.) -/
theorem chunk_segment_size_bound (text : String) (chunk_size overlap : Nat) :
    ∀ A ∈ chunkLists text chunk_size overlap,
      A ≠ []
      ∧ sumLen A ≤ max chunk_size (overlap - 1 + (A.getLastD []).length)
      ∧ (joinSp A).length + 1 = sumLen A + A.length := by
  intro A hA
  by_cases h : text = ""
  · simp [chunkLists, h] at hA
  · simp only [chunkLists, h, if_false] at hA
    rcases chunkLoop_sum_bound chunk_size overlap (splitSentences text.data) [] 0
      (by simp [sumLen]) (by intro h; exact absurd rfl h) A hA with ⟨h1, h2⟩
    exact ⟨h1, h2, joinSp_length A h1⟩

/-- C1 witness. -/
theorem chunk_segment_size_bound_witness :
    ("hi. yo." ≠ "")
    ∧ (["hi.".data] ≠ []
      ∧ sumLen ["hi.".data] ≤ max 5 (3 - 1 + (["hi.".data].getLastD []).length)
      ∧ (joinSp ["hi.".data]).length + 1 = sumLen ["hi.".data] + ["hi.".data].length) :=
  ⟨by decide, chunk_segment_size_bound "hi. yo." 5 3 ["hi.".data] (by decide)⟩

set_option maxRecDepth 100000 in
/-- C1 counterexample: chunking `exRun` (101 sentences of 5 characters)
with the default `target_size = 500, overlap = 50` emits a first segment
of 100 sentences whose joined length is 599 characters.  Every sentence of
the input is 5 characters long, so whichever sentence triggered the
overflow check, the claimed bound is `500 + 5 = 505 < 599`; the segment is
not a single oversized sentence, so the claimed exemption does not apply. -/
theorem chunk_size_bound_fails :
    (chunk_text exRun 500 50).length = 2
    ∧ ((chunkLists exRun 500 50).headI).length = 100
    ∧ ((chunk_text exRun 500 50).headI).length = 599
    ∧ (splitSentences exRun.data).all (fun s => s.length == 5) = true
    ∧ 500 + 5 < 599 := by
  refine ⟨by decide, by decide, by decide, by decide, by decide⟩

/-- Each generation operation passes a complete keyword set for its
template, so `get_prompt` succeeds and yields exactly the prompt
`promptOf` describes. -/
theorem get_prompt_ok (t : ArtifactType) (search : Search)
    (jd cn rt nm rc : String) :
    get_prompt (nameOf t) (fieldsOf t search jd cn rt nm rc)
      = Except.ok (promptOf t search jd cn rt nm rc) := by
  cases t <;> rfl

/-- Each slot of `generate_all` is the corresponding operation run on its
own prompt. -/
theorem slot_generate_all (t : ArtifactType) (search : Search) (llm : LLM)
    (jd cn rt nm rc : String) :
    slot t (generate_all search llm jd cn rt nm rc)
      = generationStep (Except.ok (promptOf t search jd cn rt nm rc)) llm := by
  cases t <;>
    simp only [generate_all, slot, generate_resume_bullets, generate_cover_letter,
      generate_ats_analysis, generate_linkedin_message, retrieve_context] <;>
    rw [← get_prompt_ok] <;> rfl

/-- C8: if the completion collaborator raises on exactly one artifact's
prompt and succeeds on the other three, `generate_all` still returns the
generated text verbatim for the other three slots, and the failing slot
holds the error-text placeholder; `generate_all` itself never raises (it
is a total function into the result record). -/
theorem generate_all_isolates_failure (search : Search) (llm : LLM)
    (jd cn rt nm rc : String) (t : ArtifactType) (res : ArtifactType → String)
    (err : String)
    (hok : ∀ s, s ≠ t → llm (promptOf s search jd cn rt nm rc) = Except.ok (res s))
    (hfail : llm (promptOf t search jd cn rt nm rc) = Except.error err) :
    (∀ s, s ≠ t → slot s (generate_all search llm jd cn rt nm rc) = res s)
    ∧ slot t (generate_all search llm jd cn rt nm rc) = "Error: " ++ err := by
  constructor
  · intro s hs
    rw [slot_generate_all]
    simp [generationStep, hok s hs]
  · rw [slot_generate_all]
    simp [generationStep, hfail]

/-- C8 witness: with a completion collaborator that raises exactly on the
cover-letter prompt, the other three artifacts come back generated and the
cover-letter slot holds the placeholder. -/
theorem generate_all_isolates_failure_witness :
    (slot ArtifactType.resumeBullets
        (generate_all (fun _ _ => []) exLLM "jd" "cn" "rt" "nm" "rc")
      = "OUT " ++ promptOf ArtifactType.resumeBullets (fun _ _ => []) "jd" "cn" "rt" "nm" "rc")
    ∧ slot ArtifactType.coverLetter
        (generate_all (fun _ _ => []) exLLM "jd" "cn" "rt" "nm" "rc")
      = "Error: " ++ "boom" := by
  have h := generate_all_isolates_failure (fun _ _ => []) exLLM "jd" "cn" "rt" "nm" "rc"
    ArtifactType.coverLetter
    (fun s => "OUT " ++ promptOf s (fun _ _ => []) "jd" "cn" "rt" "nm" "rc") "boom"
    (by intro s hs; cases s <;> first | (exact absurd rfl hs) | rfl)
    (by rfl)
  exact ⟨h.1 ArtifactType.resumeBullets (by decide), h.2⟩

/-- C9 (amended): an error raised by the prompt renderer inside a
generation operation does propagate out of `get_prompt` itself, but the
blanket in-operation handler swallows it: the operation returns the
error-text placeholder to its caller instead of re-raising. -/
theorem template_errors_swallowed (prompt_type : String)
    (fields : List (String × String)) (llm : LLM) (e : String)
    (h : get_prompt prompt_type fields = Except.error e) :
    generationStep (get_prompt prompt_type fields) llm = "Error: " ++ e := by
  rw [h]
  rfl

/-- C9 witness: an unknown template name inside the generation-operation
shape yields the placeholder, not an exception. -/
theorem template_errors_swallowed_witness :
    generationStep (get_prompt "unknown_kind" []) (fun p => Except.ok p)
      = "Error: " ++ "Unknown prompt type: unknown_kind" :=
  template_errors_swallowed "unknown_kind" [] (fun p => Except.ok p)
    "Unknown prompt type: unknown_kind" rfl

/-- C9 counterexample: when the renderer is invoked with a required field
missing (here the resume-bullets template without its `context` field),
the `ValueError` does not reach the caller of the generation operation:
the operation returns the placeholder string, the error having been
swallowed by its `except Exception` handler. -/
theorem template_error_not_raised_to_caller :
    get_prompt "resume_bullets" [("job_description", "jd"), ("name", "Ada")]
        = Except.error "Missing required argument for resume_bullets prompt: context"
    ∧ generationStep
        (get_prompt "resume_bullets" [("job_description", "jd"), ("name", "Ada")])
        (fun p => Except.ok p)
      = "Error: Missing required argument for resume_bullets prompt: context" :=
  ⟨rfl, rfl⟩

/-- Every character of a collapsed list is the replacement character or a
surviving input character outside the collapsed class. -/
theorem collapseAux_mem (p : Char → Bool) (rep : Char) :
    ∀ (l : Str) (b : Bool) (c : Char), c ∈ collapseAux p rep b l →
      c = rep ∨ (c ∈ l ∧ p c = false) := by
  intro l
  induction l with
  | nil => intro b c hc; simp [collapseAux] at hc
  | cons d cs ih =>
    intro b c hc
    by_cases hp : p d
    · cases b with
      | true =>
        simp only [collapseAux, if_pos hp, if_pos rfl] at hc
        rcases ih true c hc with h | ⟨h1, h2⟩
        · exact Or.inl h
        · exact Or.inr ⟨List.mem_cons_of_mem d h1, h2⟩
      | false =>
        simp only [collapseAux, if_pos hp] at hc
        rcases List.mem_cons.mp hc with h | h
        · exact Or.inl h
        · rcases ih true c h with h | ⟨h1, h2⟩
          · exact Or.inl h
          · exact Or.inr ⟨List.mem_cons_of_mem d h1, h2⟩
    · simp only [collapseAux, if_neg hp] at hc
      rcases List.mem_cons.mp hc with h | h
      · subst h
        exact Or.inr ⟨List.mem_cons_self c cs, by simpa using hp⟩
      · rcases ih false c h with h | ⟨h1, h2⟩
        · exact Or.inl h
        · exact Or.inr ⟨List.mem_cons_of_mem d h1, h2⟩

/-- Collapsing is the identity on lists without any character of the
collapsed class. -/
theorem collapseAux_eq_self_of_none (p : Char → Bool) (rep : Char) :
    ∀ (l : Str), (∀ c ∈ l, p c = false) → ∀ b, collapseAux p rep b l = l := by
  intro l
  induction l with
  | nil => intro _ b; rfl
  | cons d cs ih =>
    intro h b
    have hd : p d = false := h d (List.mem_cons_self d cs)
    simp only [collapseAux, hd]
    simp only [Bool.false_eq_true, if_false]
    exact congrArg (d :: ·) (ih (fun c hc => h c (List.mem_cons_of_mem d hc)) false)

/-- Inside a run, the next emitted character is outside the collapsed
class. -/
theorem collapseAux_head_true (p : Char → Bool) (rep : Char) :
    ∀ (l : Str) (c : Char), (collapseAux p rep true l).head? = some c → p c = false := by
  intro l
  induction l with
  | nil => intro c hc; cases hc
  | cons d cs ih =>
    intro c hc
    by_cases hp : p d
    · simp only [collapseAux, if_pos hp, if_pos rfl] at hc
      exact ih c hc
    · simp only [collapseAux, if_neg hp, List.head?_cons, Option.some.injEq] at hc
      subst hc
      simpa using hp

/-- The output of collapsing has no two adjacent characters of the
collapsed class. -/
theorem collapseAux_chain (p : Char → Bool) (rep : Char) :
    ∀ (l : Str) (b : Bool), List.Chain' (NoAdj p) (collapseAux p rep b l) := by
  intro l
  induction l with
  | nil => intro b; simp [collapseAux]
  | cons d cs ih =>
    intro b
    by_cases hp : p d
    · cases b with
      | true => simpa [collapseAux, hp] using ih true
      | false =>
        simp only [collapseAux, if_pos hp]
        refine List.chain'_cons'.mpr ⟨?_, ih true⟩
        intro y hy
        have := collapseAux_head_true p rep cs y hy
        intro ⟨_, h2⟩
        rw [this] at h2
        cases h2
    · simp only [collapseAux, if_neg hp]
      refine List.chain'_cons'.mpr ⟨?_, ih false⟩
      intro y _
      intro ⟨h1, _⟩
      rw [h1] at hp
      exact hp rfl

/-- Collapsing is the identity on run-free lists whose class characters
already equal the replacement (outside a run; inside a run the head must
be outside the class). -/
theorem collapseAux_eq_self (p : Char → Bool) (rep : Char) :
    ∀ (l : Str) (b : Bool), List.Chain' (NoAdj p) l →
      (∀ c ∈ l, p c = true → c = rep) →
      (b = true → ∀ c, l.head? = some c → p c = false) →
      collapseAux p rep b l = l := by
  intro l
  induction l with
  | nil => intro b _ _ _; rfl
  | cons d cs ih =>
    intro b hchain hrep hb
    have htail : List.Chain' (NoAdj p) cs := (List.chain'_cons'.mp hchain).2
    have hhead : ∀ y, cs.head? = some y → NoAdj p d y :=
      fun y hy => (List.chain'_cons'.mp hchain).1 y hy
    by_cases hp : p d
    · cases b with
      | true =>
        have := hb rfl d rfl
        rw [this] at hp
        cases hp
      | false =>
        have hd : d = rep := hrep d (List.mem_cons_self d cs) hp
        simp only [collapseAux, if_pos hp]
        have h2 : collapseAux p rep true cs = cs := by
          refine ih true htail ?_ ?_
          · exact fun c hc => hrep c (List.mem_cons_of_mem d hc)
          · intro _ c hc
            have := hhead c hc
            by_contra hcon
            exact this ⟨hp, by simpa using hcon⟩
        rw [h2, hd]
        simp
    · simp only [collapseAux, if_neg hp]
      refine congrArg (d :: ·) (ih false htail ?_ ?_)
      · exact fun c hc => hrep c (List.mem_cons_of_mem d hc)
      · intro h; cases h

/-- The head surviving `dropWhile` is outside the dropped class. -/
theorem head?_dropWhile (p : Char → Bool) :
    ∀ (l : Str) (c : Char), (l.dropWhile p).head? = some c → p c = false := by
  intro l
  induction l with
  | nil => intro c hc; cases hc
  | cons d cs ih =>
    intro c hc
    by_cases hp : p d
    · rw [List.dropWhile_cons_of_pos hp] at hc
      exact ih c hc
    · rw [List.dropWhile_cons_of_neg hp] at hc
      cases hc
      simpa using hp

/-- `stripChars` is Python `strip`: drop whitespace from both ends. -/
theorem stripChars_eq_rdropWhile (l : Str) :
    stripChars l = List.rdropWhile isWsChar (l.dropWhile isWsChar) := rfl

/-- A non-empty prefix has the same head. -/
theorem prefix_head? {l' l : Str} (h : l' <+: l) (hne : l' ≠ []) : l'.head? = l.head? := by
  rcases h with ⟨t, rfl⟩
  cases l' with
  | nil => exact absurd rfl hne
  | cons d cs => rfl

/-- The stripped list is a contiguous infix of the original. -/
theorem stripChars_contiguous (l : Str) : stripChars l <:+: l := by
  rw [stripChars_eq_rdropWhile]
  rcases List.rdropWhile_prefix isWsChar (l.dropWhile isWsChar) with ⟨t, ht⟩
  rcases List.dropWhile_suffix (l := l) isWsChar with ⟨s, hs⟩
  exact ⟨s, t, by rw [List.append_assoc, ht, hs]⟩

/-- The stripped list starts with a non-whitespace character. -/
theorem stripChars_head (l : Str) :
    ∀ c, (stripChars l).head? = some c → isWsChar c = false := by
  intro c hc
  have hne : stripChars l ≠ [] := by
    intro h
    rw [h] at hc
    cases hc
  rw [stripChars_eq_rdropWhile] at hc hne
  rw [prefix_head? (List.rdropWhile_prefix isWsChar (l.dropWhile isWsChar)) hne] at hc
  exact head?_dropWhile isWsChar l c hc

/-- The stripped list ends with a non-whitespace character. -/
theorem stripChars_getLast (l : Str) :
    ∀ c, (stripChars l).getLast? = some c → isWsChar c = false := by
  intro c hc
  have hne : stripChars l ≠ [] := by
    intro h
    rw [h] at hc
    cases hc
  rw [stripChars_eq_rdropWhile] at hc hne
  have hlast := List.rdropWhile_last_not isWsChar (l.dropWhile isWsChar) hne
  rw [List.getLast?_eq_getLast _ hne] at hc
  cases hc
  simpa using hlast

/-- Stripping is the identity when both ends are already non-whitespace. -/
theorem stripChars_eq_self {l : Str}
    (h1 : ∀ c, l.head? = some c → isWsChar c = false)
    (h2 : ∀ c, l.getLast? = some c → isWsChar c = false) : stripChars l = l := by
  have e1 : l.dropWhile isWsChar = l := by
    cases l with
    | nil => rfl
    | cons d cs => rw [List.dropWhile_cons_of_neg (by simp [h1 d rfl])]
  rw [stripChars, e1]
  have e2 : l.reverse.dropWhile isWsChar = l.reverse := by
    cases hr : l.reverse with
    | nil => rfl
    | cons d cs =>
      have hd : l.getLast? = some d := by
        rw [← List.head?_reverse, hr]
        rfl
      rw [List.dropWhile_cons_of_neg (by simp [h2 d hd])]
  rw [e2, List.reverse_reverse]

/-- The normal form that a cleaning pass establishes: only kept characters,
every whitespace character is a plain space, no two adjacent whitespace
characters, and non-whitespace ends. -/
theorem cleanList_normal (l : Str) :
    (∀ c ∈ cleanList l, isKept c = true ∧ (isWsChar c = true → c = ' '))
    ∧ List.Chain' (NoAdj isWsChar) (cleanList l)
    ∧ (∀ c, (cleanList l).head? = some c → isWsChar c = false)
    ∧ (∀ c, (cleanList l).getLast? = some c → isWsChar c = false) := by
  have hsub : ∀ c ∈ cleanList l,
      c ∈ collapseAux isWsChar ' ' false ((collapseAux isNl ' ' false l).filter isKept) :=
    fun c hc => (stripChars_contiguous _).subset hc
  refine ⟨?_, ?_, stripChars_head _, stripChars_getLast _⟩
  · intro c hc
    rcases collapseAux_mem isWsChar ' ' _ false c (hsub c hc) with h | ⟨h1, h2⟩
    · subst h
      exact ⟨by decide, fun _ => rfl⟩
    · exact ⟨List.of_mem_filter h1, fun hw => absurd hw (by simp [h2])⟩
  · exact List.Chain'.infix (collapseAux_chain isWsChar ' ' _ false) (stripChars_contiguous _)

/-- A second cleaning pass changes nothing at the character-list level. -/
theorem cleanList_idem (l : Str) : cleanList (cleanList l) = cleanList l := by
  rcases cleanList_normal l with ⟨hmem, hchain, hhead, hlast⟩
  have s1 : collapseAux isNl ' ' false (cleanList l) = cleanList l := by
    refine collapseAux_eq_self_of_none isNl ' ' (cleanList l) ?_ false
    intro c hc
    by_contra hcon
    have hnl : c = '\n' := by
      simpa [isNl] using hcon
    have : c = ' ' := (hmem c hc).2 (by rw [hnl]; rfl)
    rw [this] at hnl
    cases hnl
  have s2 : (cleanList l).filter isKept = cleanList l :=
    List.filter_eq_self.mpr fun c hc => (hmem c hc).1
  have s3 : collapseAux isWsChar ' ' false (cleanList l) = cleanList l := by
    refine collapseAux_eq_self isWsChar ' ' (cleanList l) false hchain ?_ ?_
    · exact fun c hc => (hmem c hc).2
    · intro h; cases h
  have s4 : stripChars (cleanList l) = cleanList l := stripChars_eq_self hhead hlast
  calc cleanList (cleanList l)
      = stripChars (collapseAux isWsChar ' ' false
          ((collapseAux isNl ' ' false (cleanList l)).filter isKept)) := rfl
    _ = cleanList l := by rw [s1, s2, s3, s4]

/-- C10: `clean_text` is idempotent — a second pass finds nothing left to
remove, collapse, or trim. -/
theorem clean_text_idempotent (s : String) : clean_text (clean_text s) = clean_text s := by
  by_cases hr : clean_text s = ""
  · rw [hr]
    rfl
  · have hs : s ≠ "" := by
      intro h
      rw [h] at hr
      exact hr rfl
    rw [clean_text, if_neg hr, clean_text, if_neg hs]
    exact congrArg String.mk (cleanList_idem s.data)

end JobAssistant
